import Mathlib

/-!
Shallow embedding of the chat application (src/src/main.rs, src/src/lib.rs).

The program is a broadcast chat client.  Its protocol core is the floodsub
message handler `AppBehaviour::inject_event`, which tries to deserialize each
inbound payload against three JSON schemas in a fixed order (ChatMessage,
IntroduceMyself, SayHello), mutating a `HashMap<String, String>` presence
table keyed by the source peer id, printing console lines, and queueing
outbound introductions; plus the encode helpers built on
`serde_json::to_string` and the tokio event loop in `main`.

Wire payloads are JSON texts.  The handlers observe a payload only through:
is it a JSON object, and does a given field occur exactly once with a value of
the required primitive type (serde's derived deserializers ignore unknown
fields and reject duplicate occurrences of a known field).  `JVal.other` and
`Payload.nonObj` are opaque stand-ins for every JSON value that is neither a
string nor a boolean (respectively not an object): the handlers never
distinguish among those, so the abstraction preserves their behaviour exactly.
-/

namespace ChatApp

/-- A JSON value occurring as an object field.  `other` stands in for any JSON
value that is neither a string nor a boolean (numbers, arrays, nested objects,
null); the index keeps distinct such values distinct. -/
inductive JVal where
  | str : String → JVal
  | bool : Bool → JVal
  | other : Nat → JVal
deriving DecidableEq

/-- A wire payload: either a JSON object given by its ordered field list, or
`nonObj`, an opaque stand-in for any payload that is not a JSON object
(arrays, bare scalars, malformed text). -/
inductive Payload where
  | obj : List (String × JVal) → Payload
  | nonObj : Nat → Payload
deriving DecidableEq

/-- `struct ChatMessage { message: String }` (main.rs lines 44-47). -/
structure ChatMessage where
  message : String
deriving DecidableEq

/-- `struct SayHello { name: String, hello: bool }` (main.rs lines 49-53). -/
structure SayHello where
  name : String
  hello : Bool
deriving DecidableEq

/-- `struct IntroduceMyself { name: String, receiver: String }`
(main.rs lines 55-59). -/
structure IntroduceMyself where
  name : String
  receiver : String
deriving DecidableEq

/-- The tagged union of the three wire message kinds. -/
inductive Message where
  | chat : ChatMessage → Message
  | hello : SayHello → Message
  | intro : IntroduceMyself → Message
deriving DecidableEq

/-- serde serialization of `ChatMessage` at the JSON-value level: an object
with the single field `message`, in struct field order. -/
def encodeChatMessage (m : ChatMessage) : Payload :=
  Payload.obj [("message", JVal.str m.message)]

/-- serde serialization of `SayHello`: fields `name` then `hello`. -/
def encodeSayHello (m : SayHello) : Payload :=
  Payload.obj [("name", JVal.str m.name), ("hello", JVal.bool m.hello)]

/-- serde serialization of `IntroduceMyself`: fields `name` then `receiver`. -/
def encodeIntroduceMyself (m : IntroduceMyself) : Payload :=
  Payload.obj [("name", JVal.str m.name), ("receiver", JVal.str m.receiver)]

/-- Serialization of a message of any of the three kinds. -/
def encodeMessage : Message → Payload
  | Message.chat c => encodeChatMessage c
  | Message.hello h => encodeSayHello h
  | Message.intro i => encodeIntroduceMyself i

/-- The values carried by the occurrences of field `key` in an object, in
order. -/
def fieldValues (key : String) : List (String × JVal) → List JVal
  | [] => []
  | p :: t => if p.1 = key then p.2 :: fieldValues key t else fieldValues key t

/-- A serde required `String` field: succeeds exactly when the field occurs
exactly once and its value is a JSON string (a missing field, a wrong-typed
value, or a duplicate occurrence of a known field makes the whole
deserialization fail; unknown fields are ignored). -/
def reqString (key : String) (l : List (String × JVal)) : Option String :=
  match fieldValues key l with
  | [JVal.str s] => some s
  | _ => none

/-- A serde required `bool` field, analogous to `reqString`. -/
def reqBool (key : String) (l : List (String × JVal)) : Option Bool :=
  match fieldValues key l with
  | [JVal.bool b] => some b
  | _ => none

/-- `serde_json::from_slice::<ChatMessage>`: an object with required string
field `message`. -/
def decodeChatMessage : Payload → Option ChatMessage
  | Payload.obj l => (reqString "message" l).map ChatMessage.mk
  | Payload.nonObj _ => none

/-- `serde_json::from_slice::<IntroduceMyself>`: an object with required
string fields `name` and `receiver`. -/
def decodeIntroduceMyself : Payload → Option IntroduceMyself
  | Payload.obj l =>
    match reqString "name" l, reqString "receiver" l with
    | some n, some r => some ⟨n, r⟩
    | _, _ => none
  | Payload.nonObj _ => none

/-- `serde_json::from_slice::<SayHello>`: an object with required string field
`name` and required bool field `hello`. -/
def decodeSayHello : Payload → Option SayHello
  | Payload.obj l =>
    match reqString "name" l, reqBool "hello" l with
    | some n, some h => some ⟨n, h⟩
    | _, _ => none
  | Payload.nonObj _ => none

/-- The decode cascade of `inject_event` (main.rs lines 102-112): try
`ChatMessage` first, then `IntroduceMyself`, then `SayHello`; the first schema
that matches wins. -/
def decodeMessage (p : Payload) : Option Message :=
  match decodeChatMessage p with
  | some c => some (Message.chat c)
  | none =>
    match decodeIntroduceMyself p with
    | some i => some (Message.intro i)
    | none =>
      match decodeSayHello p with
      | some h => some (Message.hello h)
      | none => none

/-- `HashMap::get` on the presence table, modelled on an association list with
the unique-keys discipline a `HashMap` maintains. -/
def hmGet : List (String × String) → String → Option String
  | [], _ => none
  | p :: t, k => if p.1 = k then some p.2 else hmGet t k

/-- `HashMap::insert`: overwrite the entry for the key if present, otherwise
append a fresh entry. -/
def hmInsert : List (String × String) → String → String → List (String × String)
  | [], k, v => [(k, v)]
  | p :: t, k, v => if p.1 = k then (k, v) :: t else p :: hmInsert t k v

/-- `HashMap::remove`: delete every entry for the key (at most one under the
unique-keys discipline); a no-op when the key is absent. -/
def hmRemove : List (String × String) → String → List (String × String)
  | [], _ => []
  | p :: t, k => if p.1 = k then hmRemove t k else p :: hmRemove t k

/-- The handler state of `AppBehaviour` that `inject_event` touches: the
`connected` presence table (source peer id string → claimed display name) and
the local display name `name`. -/
structure AppState where
  connected : List (String × String)
  name : String
deriving DecidableEq

/-- The observable outcome of one `inject_event` call: the updated state, the
console lines printed (in order), and the `IntroduceMyself` values handed to
`reponse_sender` for later broadcast. -/
structure InjectResult where
  state : AppState
  printed : List String
  introQueue : List IntroduceMyself
deriving DecidableEq

/-- `AppBehaviour::inject_event` for a `FloodsubEvent::Message` (main.rs lines
100-128): try the three schemas in order on the payload; a `ChatMessage`
prints the line under the sender's table name (`Unknown` when absent); an
`IntroduceMyself` upserts the sender exactly when its `receiver` equals the
local peer id; a `SayHello` with `hello = true` prints the join line, upserts
the sender, and queues an `IntroduceMyself{name: self.name, receiver:
source}`; with `hello = false` it prints the leave line and removes the
sender; a payload matching no schema does nothing. -/
def inject_event (peerId : String) (st : AppState) (source : String)
    (data : Payload) : InjectResult :=
  match decodeChatMessage data with
  | some resp =>
    match hmGet st.connected source with
    | some author => ⟨st, [author ++ ": " ++ resp.message], []⟩
    | none => ⟨st, ["Unknown: " ++ resp.message], []⟩
  | none =>
    match decodeIntroduceMyself data with
    | some resp =>
      if resp.receiver = peerId then
        ⟨{ st with connected := hmInsert st.connected source resp.name }, [], []⟩
      else
        ⟨st, [], []⟩
    | none =>
      match decodeSayHello data with
      | some resp =>
        if resp.hello then
          ⟨{ st with connected := hmInsert st.connected source resp.name },
            [resp.name ++ " has joined the chat"],
            [⟨st.name, source⟩]⟩
        else
          ⟨{ st with connected := hmRemove st.connected source },
            [resp.name ++ " has left the chat"], []⟩
      | none => ⟨st, [], []⟩

/-- Dispatch of an already-decoded message, used to state that `inject_event`
factors through `decodeMessage`. -/
def handleDecoded (peerId : String) (st : AppState) (source : String) :
    Option Message → InjectResult
  | some (Message.chat resp) =>
    match hmGet st.connected source with
    | some author => ⟨st, [author ++ ": " ++ resp.message], []⟩
    | none => ⟨st, ["Unknown: " ++ resp.message], []⟩
  | some (Message.intro resp) =>
    if resp.receiver = peerId then
      ⟨{ st with connected := hmInsert st.connected source resp.name }, [], []⟩
    else
      ⟨st, [], []⟩
  | some (Message.hello resp) =>
    if resp.hello then
      ⟨{ st with connected := hmInsert st.connected source resp.name },
        [resp.name ++ " has joined the chat"],
        [⟨st.name, source⟩]⟩
    else
      ⟨{ st with connected := hmRemove st.connected source },
        [resp.name ++ " has left the chat"], []⟩
  | none => ⟨st, [], []⟩

/-- Lower-case hexadecimal digit, for JSON control-character escapes. -/
def hexDigit (n : Nat) : Char :=
  if n < 10 then Char.ofNat (48 + n) else Char.ofNat (87 + n)

/-- serde_json's escaping of one character inside a JSON string literal:
quote, backslash and the named control characters get two-character escapes,
the remaining control characters get a `\u00XX` escape, everything else is
emitted verbatim. -/
def escapeChar (c : Char) : String :=
  if c = '"' then "\\\""
  else if c = '\\' then "\\\\"
  else if c = '\n' then "\\n"
  else if c = '\r' then "\\r"
  else if c = '\t' then "\\t"
  else if c = Char.ofNat 8 then "\\b"
  else if c = Char.ofNat 12 then "\\f"
  else if c.toNat < 32 then
    "\\u00" ++ String.singleton (hexDigit (c.toNat / 16))
      ++ String.singleton (hexDigit (c.toNat % 16))
  else String.singleton c

/-- serde_json's escaping of a whole string. -/
def jsonEscape (s : String) : String :=
  String.join (s.toList.map escapeChar)

/-- serde_json serialization of one field value.  String and boolean
serialization never fail; the opaque `other` values stand outside the fragment
this program serializes and are the error branch of the writer. -/
def serializeJVal : JVal → Except String String
  | JVal.str s => Except.ok ("\"" ++ jsonEscape s ++ "\"")
  | JVal.bool b => Except.ok (if b then "true" else "false")
  | JVal.other _ => Except.error "unsupported value"

/-- serde_json serialization of one `"key":value` object member. -/
def serializeField (p : String × JVal) : Except String String :=
  match serializeJVal p.2 with
  | Except.ok v => Except.ok ("\"" ++ jsonEscape p.1 ++ "\":" ++ v)
  | Except.error e => Except.error e

/-- serde_json serialization of an object's comma-separated member list. -/
def serializeFields : List (String × JVal) → Except String String
  | [] => Except.ok ""
  | [p] => serializeField p
  | p :: q :: t =>
    match serializeField p, serializeFields (q :: t) with
    | Except.ok s, Except.ok rest => Except.ok (s ++ "," ++ rest)
    | Except.error e, _ => Except.error e
    | Except.ok _, Except.error e => Except.error e

/-- `serde_json::to_string` on a payload value: braces around the serialized
member list for an object; only objects arise from the three structs this
program serializes. -/
def serdeToString : Payload → Except String String
  | Payload.obj l =>
    match serializeFields l with
    | Except.ok s => Except.ok ("\x7b" ++ s ++ "\x7d")
    | Except.error e => Except.error e
  | Payload.nonObj _ => Except.error "unsupported value"

/-- The outcome of a publish helper: `published` carries the JSON text handed
to `floodsub.publish`; `panicked` models the `.expect("can jsonify response")`
abort taken when serialization fails. -/
inductive PublishOutcome where
  | published : String → PublishOutcome
  | panicked : String → PublishOutcome
deriving DecidableEq

/-- The `.expect("can jsonify response")` wrapper around
`serde_json::to_string` shared by all publish paths. -/
def expectJson : Except String String → PublishOutcome
  | Except.ok s => PublishOutcome.published s
  | Except.error _ => PublishOutcome.panicked "can jsonify response"

/-- `AppBehaviour::say_hello` (lib.rs lines 116-121): serialize
`SayHello{name, hello}` and publish the text. -/
def say_hello (name : String) (hello : Bool) : PublishOutcome :=
  expectJson (serdeToString (encodeSayHello ⟨name, hello⟩))

/-- `AppBehaviour::chat` (lib.rs lines 123-127): serialize
`ChatMessage{message}` and publish the text. -/
def chat (message : String) : PublishOutcome :=
  expectJson (serdeToString (encodeChatMessage ⟨message⟩))

/-- `AppBehaviour::introduce` (lib.rs lines 129-133): serialize
`IntroduceMyself{name, receiver}` and publish the text. -/
def introduce (name : String) (receiver : String) : PublishOutcome :=
  expectJson (serdeToString (encodeIntroduceMyself ⟨name, receiver⟩))

/-- `enum EventType` (main.rs lines 61-66): the events the `select!` loop can
route to its match. -/
inductive EventType where
  | Input : String → EventType
  | Init : EventType
  | Introduction : IntroduceMyself → EventType
  | Exit : EventType
deriving DecidableEq

/-- The body of the event-loop match (main.rs lines 217-260): the payloads
published for one routed event.  `Init` broadcasts
`SayHello{name: self, hello: true}`, `Introduction` broadcasts the queued
reply, `Input` broadcasts a `ChatMessage`, `Exit` broadcasts
`SayHello{name: self, hello: false}`. -/
def handleEvent (selfName : String) : EventType → List Payload
  | EventType.Init => [encodeSayHello ⟨selfName, true⟩]
  | EventType.Introduction resp => [encodeIntroduceMyself resp]
  | EventType.Input line => [encodeChatMessage ⟨line⟩]
  | EventType.Exit => [encodeSayHello ⟨selfName, false⟩]

/-- The publishes of a whole run of the event loop, as a function of the
sequence of events the `select!` routed to the match. -/
def runLoop (selfName : String) : List EventType → List Payload
  | [] => []
  | e :: t => handleEvent selfName e ++ runLoop selfName t

/-- The spawned startup task (main.rs lines 190-193) sleeps and then performs
exactly this list of sends on the init channel — a single one. -/
def initSignals : List Bool := [true]

/-- The startup task's sleep, `Duration::from_secs(1)` (main.rs line 191). -/
def initTaskDelaySeconds : Nat := 1

/-- Occurrences of a given payload in a publish list. -/
def countPub (x : Payload) : List Payload → Nat
  | [] => 0
  | p :: t => (if p = x then 1 else 0) + countPub x t

/-- Occurrences of the `Init` event in a routed-event sequence. -/
def countInit : List EventType → Nat
  | [] => 0
  | e :: t => (if e = EventType.Init then 1 else 0) + countInit t

theorem hmGet_hmInsert (m : List (String × String)) (k v : String) :
    hmGet (hmInsert m k v) k = some v := by
  induction m with
  | nil => simp [hmInsert, hmGet]
  | cons p t ih =>
    by_cases h : p.1 = k
    · simp [hmInsert, hmGet, h]
    · simp [hmInsert, hmGet, h, ih]

theorem hmGet_hmRemove (m : List (String × String)) (k : String) :
    hmGet (hmRemove m k) k = none := by
  induction m with
  | nil => simp [hmRemove, hmGet]
  | cons p t ih =>
    by_cases h : p.1 = k
    · simp [hmRemove, h, ih]
    · simp [hmRemove, hmGet, h, ih]

theorem hmRemove_idem (m : List (String × String)) (k : String) :
    hmRemove (hmRemove m k) k = hmRemove m k := by
  induction m with
  | nil => rfl
  | cons p t ih =>
    by_cases h : p.1 = k
    · simp [hmRemove, h, ih]
    · simp [hmRemove, h, ih]

theorem countPub_append (x : Payload) (a b : List Payload) :
    countPub x (a ++ b) = countPub x a + countPub x b := by
  induction a with
  | nil => simp [countPub]
  | cons p t ih =>
    simp [countPub, ih]
    omega

theorem countPub_handleEvent (selfName : String) (e : EventType) :
    countPub (encodeSayHello ⟨selfName, true⟩) (handleEvent selfName e) =
      (if e = EventType.Init then 1 else 0) := by
  cases e with
  | Init => simp [handleEvent, countPub]
  | Input line => simp [handleEvent, countPub, encodeChatMessage, encodeSayHello]
  | Introduction resp =>
    simp [handleEvent, countPub, encodeIntroduceMyself, encodeSayHello]
  | Exit => simp [handleEvent, countPub, encodeSayHello]

theorem countPub_runLoop (selfName : String) (evts : List EventType) :
    countPub (encodeSayHello ⟨selfName, true⟩) (runLoop selfName evts) =
      countInit evts := by
  induction evts with
  | nil => rfl
  | cons e t ih =>
    simp [runLoop, countPub_append, countPub_handleEvent, countInit, ih]

/-- C1: receiving `Presence{joining=true, name=N}` from peer P puts P in the
Present state with `lookup(P) == N`, inserting or overwriting any prior entry,
and enqueues exactly one outbound `Introduction{name: self.name, receiver: P}`
— for every prior state, so whether or not P was previously present. -/
theorem presence_join_upserts_and_introduces (pid : String) (st : AppState)
    (P N : String) :
    hmGet (inject_event pid st P (encodeSayHello ⟨N, true⟩)).state.connected P
        = some N ∧
    (inject_event pid st P (encodeSayHello ⟨N, true⟩)).introQueue
        = [⟨st.name, P⟩] :=
  ⟨hmGet_hmInsert st.connected P N, rfl⟩

/-- C2: receiving `Presence{joining=false}` from peer P results in
`lookup(P) == none` for every prior state (present or not), and the removal is
idempotent: handling the same departure again leaves the state unchanged.  The
handler is a total function, so no error is raised when P is absent. -/
theorem presence_leave_removes_idempotent (pid : String) (st : AppState)
    (P N : String) :
    hmGet (inject_event pid st P (encodeSayHello ⟨N, false⟩)).state.connected P
        = none ∧
    (inject_event pid (inject_event pid st P (encodeSayHello ⟨N, false⟩)).state
        P (encodeSayHello ⟨N, false⟩)).state
      = (inject_event pid st P (encodeSayHello ⟨N, false⟩)).state :=
  ⟨hmGet_hmRemove st.connected P,
    congrArg (fun l => AppState.mk l st.name) (hmRemove_idem st.connected P)⟩

/-- C3: a received `Introduction{name, receiver}` from peer P upserts P (who
then has a table entry, hence is Present) exactly when `receiver` equals the
local peer id, and otherwise changes nothing and produces nothing — no table
mutation, no print, no queued message. -/
theorem introduction_receiver_filter (pid : String) (st : AppState)
    (P nm recv : String) :
    inject_event pid st P (encodeIntroduceMyself ⟨nm, recv⟩) =
      (if recv = pid then
        ⟨{ st with connected := hmInsert st.connected P nm }, [], []⟩
      else ⟨st, [], []⟩) ∧
    hmGet (hmInsert st.connected P nm) P = some nm :=
  ⟨rfl, hmGet_hmInsert st.connected P nm⟩

/-- C4: a received `Chat{text}` from peer P leaves the presence table (and the
whole handler state) unchanged, queues nothing, and prints `"{name}: {text}"`
when `lookup(P)` is `some name` and `"Unknown: {text}"` when it is `none`. -/
theorem chat_display_and_table_unchanged (pid : String) (st : AppState)
    (P text : String) :
    (inject_event pid st P (encodeChatMessage ⟨text⟩)).state = st ∧
    (inject_event pid st P (encodeChatMessage ⟨text⟩)).introQueue = [] ∧
    (inject_event pid st P (encodeChatMessage ⟨text⟩)).printed =
      [match hmGet st.connected P with
       | some nm => nm ++ ": " ++ text
       | none => "Unknown: " ++ text] := by
  have e : inject_event pid st P (encodeChatMessage ⟨text⟩) =
      match hmGet st.connected P with
      | some author => ⟨st, [author ++ ": " ++ text], []⟩
      | none => ⟨st, ["Unknown: " ++ text], []⟩ := rfl
  rw [e]
  cases hmGet st.connected P <;> simp

/-- C5: for each of the three message kinds, decoding the bytes produced by
encoding the message yields the original message. -/
theorem decode_encode_roundtrip (m : Message) :
    decodeMessage (encodeMessage m) = some m := by
  cases m <;> rfl

/-- C6: decoding tries the three schemas in the fixed order Chat (field
`message`), then Introduction (fields `name` and `receiver`), then Presence
(fields `name` and `hello`) and handles the first structural match: the
handler factors through this cascade, and a payload matching none of the
three is dropped silently — same state, no print, no queued message. -/
theorem decode_priority_and_silent_drop (pid : String) (st : AppState)
    (src : String) (d : Payload) :
    decodeMessage d =
      (match decodeChatMessage d, decodeIntroduceMyself d, decodeSayHello d with
        | some c, _, _ => some (Message.chat c)
        | none, some i, _ => some (Message.intro i)
        | none, none, some h => some (Message.hello h)
        | none, none, none => none) ∧
    inject_event pid st src d = handleDecoded pid st src (decodeMessage d) ∧
    (decodeMessage d = none → inject_event pid st src d = ⟨st, [], []⟩) := by
  rcases hc : decodeChatMessage d with _ | c <;>
    rcases hi : decodeIntroduceMyself d with _ | i <;>
      rcases hh : decodeSayHello d with _ | h <;>
        simp [decodeMessage, inject_event, handleDecoded, hc, hi, hh]

/-- Witness for C6 at a concrete payload matching none of the schemas: the
object with the single unknown field `foo` is silently dropped. -/
theorem decode_priority_and_silent_drop_witness :
    inject_event "p" ⟨[], "me"⟩ "q" (Payload.obj [("foo", JVal.bool true)]) =
      ⟨⟨[], "me"⟩, [], []⟩ :=
  (decode_priority_and_silent_drop "p" ⟨[], "me"⟩ "q"
    (Payload.obj [("foo", JVal.bool true)])).2.2 rfl

/-- C7: serialization succeeds for every value of each of the three message
kinds, so each publish helper reaches `published` and the
`.expect("can jsonify response")` panic branch is unreachable. -/
theorem encode_never_fails (m : Message) (n r msg : String) (b : Bool) :
    (∃ s, serdeToString (encodeMessage m) = Except.ok s) ∧
    (∃ s, say_hello n b = PublishOutcome.published s) ∧
    (∃ s, chat msg = PublishOutcome.published s) ∧
    (∃ s, introduce n r = PublishOutcome.published s) := by
  refine ⟨?_, ⟨_, rfl⟩, ⟨_, rfl⟩, ⟨_, rfl⟩⟩
  cases m <;> exact ⟨_, rfl⟩

/-- C8: the startup task sleeps 1 second and sends a single init signal; an
`Init` event publishes exactly the `SayHello{hello: true}` announcement; and
over any whole run whose routed events contain the init task's signals (one
`Init`), exactly one such announcement payload is published — no other event
kind produces it. -/
theorem startup_timer_single_announcement (selfName : String)
    (evts : List EventType)
    (hinit : countInit evts = initSignals.length) :
    initTaskDelaySeconds = 1 ∧
    initSignals.length = 1 ∧
    handleEvent selfName EventType.Init = [encodeSayHello ⟨selfName, true⟩] ∧
    countPub (encodeSayHello ⟨selfName, true⟩) (runLoop selfName evts) = 1 := by
  refine ⟨rfl, rfl, rfl, ?_⟩
  rw [countPub_runLoop, hinit]
  rfl

/-- Witness for C8 at a concrete run containing one `Init` among other
events. -/
theorem startup_timer_single_announcement_witness :
    countPub (encodeSayHello ⟨"alice", true⟩)
      (runLoop "alice" [EventType.Input "hi", EventType.Init, EventType.Exit])
      = 1 :=
  (startup_timer_single_announcement "alice"
    [EventType.Input "hi", EventType.Init, EventType.Exit] rfl).2.2.2

/-- C10: receiving `Presence{joining=false, name=N}` from peer P prints
`"N has left the chat"` for every prior state — the line is not gated on P
having a presence-table entry. -/
theorem departure_line_unconditional (pid : String) (st : AppState)
    (P N : String) :
    (inject_event pid st P (encodeSayHello ⟨N, false⟩)).printed =
      [N ++ " has left the chat"] := rfl

end ChatApp
